import Mathlib

/-!
Shallow embedding of the job-radar repository pieces needed for the
frozen claims: the title/description filter rules in
src/radar/filters/rules.py, the entry-level filter in
src/radar/filters/entry.py, deduplication in src/radar/core/dedupe.py,
the curated-date parser in src/radar/core/date_parse.py, the basic
matcher, scoring sort and posted_at backfill in src/job_radar.py, and
the upsert field loop in src/radar/db/crud.py.

Python regular expressions are embedded through a small backtracking
matcher over character lists.  A matcher takes the previous character
(needed for the word-boundary assertion) and the remaining input, and
returns every possible state after consuming a prefix.  Patterns are
written lowercase and inputs are lowercased, which models the IGNORECASE
flag for the ASCII patterns used in this code base.
-/

/-- Word character in the sense of the regex word class: ASCII
alphanumeric or underscore. -/
def isWordChar (c : Char) : Bool := c.isAlphanum || c = '_'

/-- Result states of a matcher: previous character consumed and rest. -/
abbrev MState := Option Char × List Char

/-- A matcher consumes a prefix of the input; it receives the character
just before the current position (none at the start of the string) and
returns all reachable states. -/
abbrev MatchFn := Option Char → List Char → List MState

/-- Empty pattern: consumes nothing. -/
def mEps : MatchFn := fun p cs => [(p, cs)]

/-- Single character matching a predicate. -/
def mChar (f : Char → Bool) : MatchFn := fun _ cs =>
  match cs with
  | [] => []
  | c :: rest => if f c then [(some c, rest)] else []

/-- Sequencing of two matchers. -/
def mSeq (m1 m2 : MatchFn) : MatchFn := fun p cs =>
  (m1 p cs).flatMap fun st => m2 st.1 st.2

/-- Alternation over a list of matchers. -/
def mAlt (ms : List MatchFn) : MatchFn := fun p cs =>
  ms.flatMap fun m => m p cs

/-- Optional pattern (regex question mark). -/
def mOpt (m : MatchFn) : MatchFn := fun p cs => (p, cs) :: m p cs

/-- Literal character list. -/
def mLit : List Char → MatchFn
  | [] => mEps
  | c :: w => mSeq (mChar (fun x => x = c)) (mLit w)

/-- Literal string. -/
def mStr (s : String) : MatchFn := mLit s.data

/-- Kleene star over a single-character class (regex class star). -/
def starCls (f : Char → Bool) : Option Char → List Char → List MState
  | p, [] => [(p, [])]
  | p, c :: rest =>
      (p, c :: rest) :: (if f c then starCls f (some c) rest else [])

/-- Whitespace star, the regex pattern backslash-s star. -/
def mWs : MatchFn := starCls Char.isWhitespace

/-- One or more characters of a class. -/
def plusCls (f : Char → Bool) : MatchFn := mSeq (mChar f) (starCls f)

/-- Word-boundary assertion: the previous and next characters disagree
on being word characters (a missing character counts as non-word). -/
def mWB : MatchFn := fun p cs =>
  let pw := match p with | some c => isWordChar c | none => false
  let nw := match cs with | [] => false | c :: _ => isWordChar c
  if pw != nw then [(p, cs)] else []

/-- Does the pattern match starting at some position at or after the
current state?  This models re.search. -/
def searchFrom (m : MatchFn) : Option Char → List Char → Bool
  | p, [] => !(m p []).isEmpty
  | p, c :: rest => !(m p (c :: rest)).isEmpty || searchFrom m (some c) rest

/-- Model of pattern.search(s) for an IGNORECASE pattern: the input is
lowercased and matching is attempted at every position. -/
def reSearch (m : MatchFn) (s : String) : Bool :=
  searchFrom m none (s.data.map Char.toLower)

/-- Substring containment on character lists, modelling the Python
membership test on strings. -/
def listContains : List Char → List Char → Bool
  | hay, pat =>
    match hay with
    | [] => pat.isEmpty
    | _ :: rest => pat.isPrefixOf hay || listContains rest pat

/-- Python substring test: pat in hay. -/
def strContains (hay pat : String) : Bool := listContains hay.data pat.data

/-- Python str.lower for the ASCII texts considered here. -/
def pyLower (s : String) : String := ⟨s.data.map Char.toLower⟩

/-- Python str.strip: whitespace removed from both ends. -/
def pyStrip (s : String) : String :=
  ⟨((s.data.dropWhile Char.isWhitespace).reverse.dropWhile Char.isWhitespace).reverse⟩

/-- Emptiness test on the character list of a string. -/
def strEmpty (s : String) : Bool := s.data.isEmpty

/-!
Patterns of src/radar/filters/rules.py, transcribed alternative by
alternative.  All of them carry the IGNORECASE flag in the source, so
they are written lowercase here and applied through reSearch.
-/

/-- rules.py line 24: senior title markers with word boundaries.  The
last alternative is s with optional dot, r with optional dot. -/
def SENIOR_BLOCK : MatchFn :=
  mSeq mWB (mSeq (mAlt [
    mStr "senior", mStr "staff", mStr "principal", mStr "lead",
    mStr "manager", mStr "architect",
    mSeq (mStr "s") (mSeq (mOpt (mStr ".")) (mSeq (mStr "r") (mOpt (mStr "."))))
  ]) mWB)

/-- rules.py JUNIOR_TITLE: explicit junior-looking titles. -/
def JUNIOR_TITLE : MatchFn :=
  mSeq mWB (mSeq (mAlt [
    mStr "junior",
    mSeq (mStr "new") (mSeq mWs (mStr "grad")),
    mSeq (mStr "entry") (mSeq (starCls (fun c => c = '-' || c.isWhitespace)) (mStr "level")),
    mStr "associate",
    mSeq (mAlt [mStr "software", mStr "swe", mStr "sde", mStr "se",
                mStr "developer", mStr "engineer"])
      (mSeq mWs (mAlt [mStr "i", mStr "1", mSeq (mStr "i") (mStr ".")]))
  ]) mWB)

/-- rules.py ENGINEER_L2: explicit level II/2 titles. -/
def ENGINEER_L2 : MatchFn :=
  mSeq mWB (mSeq (mAlt [mStr "software", mStr "swe", mStr "sde", mStr "se",
                        mStr "developer", mStr "engineer"])
    (mSeq mWs (mSeq (mAlt [mStr "ii", mStr "2"]) mWB)))

/-- rules.py line 142: the inline level III/3 guard inside
is_junior_title_or_desc. -/
def LEVEL3_GUARD : MatchFn := mSeq mWB (mSeq (mAlt [mStr "iii", mStr "3"]) mWB)

/-- Shared piece: years or yrs with optional plural s. -/
def yearsWord : MatchFn :=
  mAlt [mSeq (mStr "year") (mOpt (mStr "s")), mSeq (mStr "yr") (mOpt (mStr "s"))]

/-- Shared piece: of-experience / exp / yoe suffix. -/
def expSuffix : MatchFn :=
  mAlt [mSeq (mStr "of") (mSeq mWs (mStr "experience")), mStr "exp", mStr "yoe"]

/-- rules.py YEARS_0_TO_3: numeric ranges and counts up to 3 years. -/
def YEARS_0_TO_3 : MatchFn :=
  mAlt [
    mSeq mWB (mSeq (mAlt [mStr "0", mStr "1", mStr "2", mStr "3"])
      (mSeq (mOpt (mSeq mWs (mSeq (mChar (fun c => c = '-' || c = '–'))
                    (mSeq mWs (mAlt [mStr "1", mStr "2", mStr "3"])))))
        (mSeq mWs (mSeq yearsWord (mSeq mWs (mSeq (mOpt expSuffix) mWB)))))),
    mSeq mWB (mSeq (mAlt [mStr "0", mStr "1", mStr "2", mStr "3"])
      (mSeq mWs (mSeq (mStr "+") (mSeq mWs (mSeq yearsWord mWB))))),
    mSeq mWB (mSeq (mAlt [mSeq (mStr "up") (mSeq mWs (mStr "to")), mStr "≤", mStr "<="])
      (mSeq mWs (mSeq (mStr "3") (mSeq mWs (mSeq yearsWord mWB))))),
    mSeq mWB (mSeq (mAlt [mStr "zero", mStr "one", mStr "two", mStr "three"])
      (mSeq (mOpt (mSeq mWs (mSeq (mAlt [mStr "to", mChar (fun c => c = '-' || c = '–')])
                    (mSeq mWs (mAlt [mStr "one", mStr "two", mStr "three"])))))
        (mSeq mWs (mSeq yearsWord mWB))))
  ]

/-- rules.py DESC_4PLUS_YEARS: 4-plus years phrases in descriptions. -/
def DESC_4PLUS_YEARS : MatchFn :=
  mSeq mWB (mSeq (mAlt [
    mSeq (mAlt [mStr "4", mStr "5", mStr "6", mStr "7", mStr "8", mStr "9",
                mSeq (mStr "1") (mChar Char.isDigit)])
      (mSeq mWs (mSeq (mOpt (mAlt [mStr "+", mStr "plus"]))
        (mSeq mWs (mSeq yearsWord (mSeq mWs (mOpt expSuffix)))))),
    mSeq (mOpt (mAlt [
        mSeq (mStr "at") (mSeq mWs (mStr "least")),
        mSeq (mStr "min") (mSeq (mOpt (mStr "imum")) (mSeq mWs (mStr "of"))),
        mSeq (mStr "min") (mSeq (mOpt (mStr ".")) mWs)]))
      (mSeq (mAlt [mStr "4", mStr "four"]) (mSeq mWs yearsWord)),
    mSeq (mAlt [mStr "4", mStr "four"])
      (mSeq mWs (mSeq (mChar (fun c => c = '-' || c = '–'))
        (mSeq mWs (mSeq (mAlt [mStr "5", mStr "six", mStr "6", mStr "7", mStr "seven",
                               mStr "8", mStr "eight", mStr "9", mStr "nine",
                               mSeq (mStr "1") (mChar Char.isDigit)])
          (mSeq mWs yearsWord)))))
  ]) mWB)

/-- rules.py DESC_SENIOR_WORDS: explicit seniority words in text. -/
def DESC_SENIOR_WORDS : MatchFn :=
  mSeq mWB (mSeq (mAlt [mStr "senior", mStr "staff", mStr "principal", mStr "lead",
                        mStr "architect", mStr "manager"]) mWB)

/-- rules.py JUNIOR_DESC_POSITIVES: junior-positive phrases checked by
plain substring containment on the lowercased description. -/
def JUNIOR_DESC_POSITIVES : List String := [
  "junior", "new grad", "new college grad", "recent grad", "recent graduate",
  "recent college graduate", "fresh graduate", "entry level", "entry-level",
  "early career", "early in career", "college hire", "university graduate",
  "graduate role", "graduate program", "grad program", "apprentice",
  "apprenticeship", "apprenticeship programme", "intern to full-time",
  "engineer i", "developer i", "software engineer i", "level 1", "ic-1",
  "ic1", "l1",
  "0-1 years", "0–1 years", "0 to 1 years",
  "0-2 years", "0–2 years", "0 to 2 years",
  "1-2 years", "1–2 years", "1 to 2 years",
  "1-3 years", "1–3 years", "1 to 3 years",
  "0-2 years preferred", "0–2 years preferred", "0 to 2 years preferred",
  "0-3 years preferred", "0–3 years preferred", "0 to 3 years preferred",
  "up to 2 years", "up to 3 years", "under 3 years", "less than 3 years",
  "preferred 0-2 years", "preferred 0–2 years",
  "early talent", "early talent program", "campus hire", "new college graduate",
  "graduate scheme", "rotation program", "rotational program",
  "entry role", "engineer 1", "developer 1", "software engineer 1"
]

/-- Python truthiness of an optional string: None and the empty string
are both falsy. -/
def optTruthy : Option String → Bool
  | none => false
  | some s => !(strEmpty s)

/-- Containment of any junior-positive phrase in a lowercased text. -/
def juniorDescAny (text : String) : Bool :=
  JUNIOR_DESC_POSITIVES.any (fun k => strContains text k)

/-- rules.py is_junior_title_or_desc, lines 135 to 186.  Early returns
are rendered as a chain of conditionals; each blocking condition is the
exact condition under which the corresponding return False runs. -/
def is_junior_title_or_desc (title : String) (description_html : Option String)
    (relaxed : Bool) : Bool :=
  let t := title
  if reSearch SENIOR_BLOCK t then false
  else if reSearch ENGINEER_L2 t
      && !(relaxed && optTruthy description_html
           && (let txt := pyLower (description_html.getD "")
               reSearch YEARS_0_TO_3 txt || juniorDescAny txt)) then false
  else if reSearch LEVEL3_GUARD t
      && !(relaxed && optTruthy description_html
           && reSearch YEARS_0_TO_3 (pyLower (description_html.getD ""))) then false
  else if reSearch JUNIOR_TITLE t || reSearch YEARS_0_TO_3 t then true
  else if !relaxed || !optTruthy description_html then false
  else
    let text := pyLower (description_html.getD "")
    if reSearch DESC_4PLUS_YEARS text then false
    else if reSearch DESC_SENIOR_WORDS text && !juniorDescAny text then false
    else if juniorDescAny text then true
    else if reSearch YEARS_0_TO_3 text then true
    else false

/-- rules.py looks_remote_us: the US-affirming keywords of _usish. -/
def usishKeywords : List String :=
  ["united states", "u.s.", "usa", "u.s.a", "us only", "remote - us",
   "remote (us)", "us-remote", "remote/us"]

/-- rules.py helper _usish. -/
def usish (txt : String) : Bool :=
  let t := pyLower txt
  usishKeywords.any (fun kw => strContains t kw)

/-- rules.py NON_US_MARKERS inside looks_remote_us. -/
def NON_US_MARKERS : List String := [
  "canada", "canadian", "toronto", "vancouver", "montreal",
  "united kingdom", "uk", "europe", "eu", "emea", "apac", "australia",
  "new zealand", "nz",
  "mexico", "latam", "brazil", "argentina", "colombia", "chile", "peru",
  "india", "singapore", "philippines",
  "africa", "south africa", "nigeria", "mena", "uae", "dubai", "middle east",
  "germany", "france", "spain", "italy", "portugal", "netherlands", "belgium",
  "sweden", "norway", "denmark", "finland", "ireland", "poland", "romania"
]

/-- rules.py helper _has_non_us_remote: remote mention plus a non-US
marker and no US-affirming keyword. -/
def has_non_us_remote (txt : String) : Bool :=
  let t := pyLower txt
  strContains t "remote" && NON_US_MARKERS.any (fun m => strContains t m)
    && !(usish t)

/-- rules.py looks_remote_us, lines 189 to 225: location is examined
first with early returns, then the description, then False. -/
def looks_remote_us (location : Option String) (description_html : Option String) : Bool :=
  let fromDesc : Bool :=
    if optTruthy description_html then
      let text := pyLower (description_html.getD "")
      if has_non_us_remote text then false
      else if strContains text "remote" && usish text then true
      else false
    else false
  if optTruthy location then
    let loc := pyLower (location.getD "")
    if has_non_us_remote loc then false
    else if strContains loc "remote" && usish loc then true
    else fromDesc
  else fromDesc

/-- rules.py CORE_SWE_HINTS. -/
def CORE_SWE_HINTS : MatchFn :=
  mSeq mWB (mSeq (mAlt [
    mStr "software",
    mSeq (mStr "full") (mSeq (mOpt (mChar (fun c => c = '-' || c = ' '))) (mStr "stack")),
    mStr "fullstack",
    mSeq (mStr "front") (mSeq (mOpt (mChar (fun c => c = '-' || c = ' '))) (mStr "end")),
    mStr "frontend",
    mSeq (mStr "back") (mSeq (mOpt (mChar (fun c => c = '-' || c = ' '))) (mStr "end")),
    mStr "backend",
    mStr "platform", mStr "web", mStr "mobile", mStr "ios", mStr "android",
    mStr "data", mStr "ml",
    mSeq (mStr "machine") (mSeq mWs (mStr "learning")),
    mStr "devops", mStr "swe", mStr "sre",
    mSeq (mStr "site") (mSeq mWs (mStr "reliability")),
    mStr "security", mStr "infrastructure"
  ]) mWB)

/-- rules.py GENERIC_ENGINEER. -/
def GENERIC_ENGINEER : MatchFn :=
  mSeq mWB (mSeq (mAlt [mStr "engineer", mStr "developer"]) mWB)

/-- rules.py NON_SWE_ENGINEER: non-SWE engineer variants. -/
def NON_SWE_ENGINEER : MatchFn :=
  mSeq mWB (mSeq (mAlt [
    mStr "sales", mStr "account", mStr "customer", mStr "support",
    mStr "success", mStr "implementation", mStr "solutions", mStr "field",
    mSeq (mStr "pre") (mSeq (mOpt (mChar (fun c => c = '-' || c = ' '))) (mStr "sales")),
    mSeq (mStr "professional") (mSeq mWs (mStr "services")),
    mStr "broadcast", mStr "audio", mStr "video",
    mSeq (mStr "a") (mSeq (mOpt (mStr "/")) (mStr "v")),
    mStr "av"
  ]) (mSeq (plusCls Char.isWhitespace)
    (mSeq (mAlt [mStr "engineer", mStr "engineering"]) mWB)))

/-- rules.py looks_like_engineering, lines 121 to 133. -/
def looks_like_engineering (title : String) : Bool :=
  let t := pyStrip title
  if strEmpty t then false
  else if reSearch NON_SWE_ENGINEER t && !(reSearch CORE_SWE_HINTS t) then false
  else if reSearch CORE_SWE_HINTS t then true
  else if reSearch GENERIC_ENGINEER t then true
  else false

/-!
Datetime model.  Python datetime objects are embedded as naive
year/month/day/hour/minute/second/microsecond records, with the
proleptic Gregorian ordinal arithmetic of the CPython datetime module
(toordinal and its inverse) used for subtraction of day deltas and for
timedelta comparisons.
-/

/-- Naive Python datetime. -/
structure PyDateTime where
  year : Nat
  month : Nat
  day : Nat
  hour : Nat
  minute : Nat
  second : Nat
  microsecond : Nat
deriving DecidableEq, Repr

/-- Month lengths of a non-leap year. -/
def DAYS_IN_MONTH : List Nat := [31, 28, 31, 30, 31, 30, 31, 31, 30, 31, 30, 31]

/-- Gregorian leap year test, as in the datetime module. -/
def isLeap (y : Nat) : Bool := y % 4 = 0 && (y % 100 ≠ 0 || y % 400 = 0)

/-- Number of days in a month of a given year. -/
def daysInMonth (y m : Nat) : Nat :=
  if m = 2 && isLeap y then 29 else DAYS_IN_MONTH.getD (m - 1) 31

/-- Days in the year before the given month starts. -/
def daysBeforeMonth (y m : Nat) : Nat :=
  ((List.range (m - 1)).map (fun i => daysInMonth y (i + 1))).sum

/-- Days before January 1 of the given year (datetime _days_before_year). -/
def daysBeforeYear (y : Nat) : Nat :=
  (y - 1) * 365 + (y - 1) / 4 - (y - 1) / 100 + (y - 1) / 400

/-- Proleptic Gregorian ordinal of a date (datetime toordinal). -/
def ymd2ord (y m d : Nat) : Nat := daysBeforeYear y + daysBeforeMonth y m + d

/-- Walk the months of a year to locate a zero-based day offset. -/
def monthScan (y : Nat) : List Nat → Nat → Nat × Nat
  | [], n => (12, n + 1)
  | m :: ms, n =>
      if n < daysInMonth y m then (m, n + 1) else monthScan y ms (n - daysInMonth y m)

/-- Inverse of ymd2ord (datetime _ord2ymd). -/
def ord2ymd (o : Nat) : Nat × Nat × Nat :=
  let n := o - 1
  let n400 := n / 146097
  let r400 := n % 146097
  let n100 := r400 / 36524
  let r100 := r400 % 36524
  let n4 := r100 / 1461
  let r4 := r100 % 1461
  let n1 := r4 / 365
  let r1 := r4 % 365
  let year := n400 * 400 + n100 * 100 + n4 * 4 + n1 + 1
  if n1 = 4 || n100 = 4 then (year - 1, 12, 31)
  else
    let md := monthScan year [1, 2, 3, 4, 5, 6, 7, 8, 9, 10, 11, 12] r1
    (year, md.1, md.2)

/-- Python datetime constructor with midnight time: None on a
ValueError (out-of-range field). -/
def mkDatetime (y m d : Nat) : Option PyDateTime :=
  if 1 ≤ y && y ≤ 9999 && 1 ≤ m && m ≤ 12 && 1 ≤ d && d ≤ daysInMonth y m then
    some ⟨y, m, d, 0, 0, 0, 0⟩
  else none

/-- Subtraction of a whole-day timedelta from a datetime. -/
def pySubDays (dt : PyDateTime) (k : Nat) : PyDateTime :=
  let o := ymd2ord dt.year dt.month dt.day - k
  let ymd := ord2ymd o
  ⟨ymd.1, ymd.2.1, ymd.2.2, dt.hour, dt.minute, dt.second, dt.microsecond⟩

/-- Python replace with hour, minute, second and microsecond zeroed. -/
def replaceMidnight (dt : PyDateTime) : PyDateTime :=
  ⟨dt.year, dt.month, dt.day, 0, 0, 0, 0⟩

/-- Microseconds since the ordinal epoch; datetime subtraction and
timedelta comparison are carried out on this value. -/
def toMicro (dt : PyDateTime) : Nat :=
  ((((ymd2ord dt.year dt.month dt.day) * 24 + dt.hour) * 60 + dt.minute) * 60
    + dt.second) * 1000000 + dt.microsecond

/-!
Embedding of src/radar/core/date_parse.py.  The four anchored patterns
ISO_DATE, MONTH_DAY, DAYS_AGO and AGE_SHORT are deterministic, so they
are rendered as direct parsers over character lists; maximal-run
splitting coincides with the regex semantics here because the involved
character classes are disjoint at every split point.
-/

/-- Digits of a numeral to a number. -/
def digitsToNat (cs : List Char) : Nat :=
  cs.foldl (fun n c => n * 10 + (c.toNat - 48)) 0

/-- Consume an exact literal. -/
def stripLit (lit : List Char) (cs : List Char) : Option (List Char) :=
  if lit.isPrefixOf cs then some (cs.drop lit.length) else none

/-- ISO_DATE: anchored 4-digit year, dash, 1-2 digit month, dash,
1-2 digit day. -/
def matchISO (cs : List Char) : Option (Nat × Nat × Nat) :=
  let ys := cs.takeWhile Char.isDigit
  let r1 := cs.dropWhile Char.isDigit
  if ys.length = 4 then
    match r1 with
    | '-' :: r2 =>
      let ms := r2.takeWhile Char.isDigit
      let r3 := r2.dropWhile Char.isDigit
      if 1 ≤ ms.length && ms.length ≤ 2 then
        match r3 with
        | '-' :: r4 =>
          let ds := r4.takeWhile Char.isDigit
          let r5 := r4.dropWhile Char.isDigit
          if (1 ≤ ds.length && ds.length ≤ 2) && r5.isEmpty then
            some (digitsToNat ys, digitsToNat ms, digitsToNat ds)
          else none
        | _ => none
      else none
    | _ => none
  else none

/-- MONTH_DAY: anchored word of length at least 3, whitespace, then a
1-2 digit day. -/
def matchMonthDay (cs : List Char) : Option (List Char × Nat) :=
  let w := cs.takeWhile isWordChar
  let r1 := cs.dropWhile isWordChar
  if 3 ≤ w.length then
    let sp := r1.takeWhile Char.isWhitespace
    let r2 := r1.dropWhile Char.isWhitespace
    if 1 ≤ sp.length then
      let ds := r2.takeWhile Char.isDigit
      let r3 := r2.dropWhile Char.isDigit
      if (1 ≤ ds.length && ds.length ≤ 2) && r3.isEmpty then
        some (w, digitsToNat ds)
      else none
    else none
  else none

/-- DAYS_AGO: anchored digits, optional whitespace, day with optional
plural s, optional whitespace, ago. -/
def matchDaysAgo (cs : List Char) : Option Nat :=
  let ds := cs.takeWhile Char.isDigit
  let r1 := cs.dropWhile Char.isDigit
  if 1 ≤ ds.length then
    let r2 := r1.dropWhile Char.isWhitespace
    match stripLit ['d', 'a', 'y'] r2 with
    | none => none
    | some r3 =>
      let r4 := match r3 with
        | 's' :: t => t
        | _ => r3
      let r5 := r4.dropWhile Char.isWhitespace
      match stripLit ['a', 'g', 'o'] r5 with
      | some [] => some (digitsToNat ds)
      | _ => none
  else none

/-- AGE_SHORT: anchored digits followed by a single d, h or w. -/
def matchAgeShort (cs : List Char) : Option (Nat × Char) :=
  let ds := cs.takeWhile Char.isDigit
  let r1 := cs.dropWhile Char.isDigit
  if 1 ≤ ds.length then
    match r1 with
    | [u] => if u = 'd' || u = 'h' || u = 'w' then some (digitsToNat ds, u) else none
    | _ => none
  else none

/-- MONTHS table of date_parse.py. -/
def MONTHS : List (String × Nat) :=
  [("jan", 1), ("feb", 2), ("mar", 3), ("apr", 4), ("may", 5), ("jun", 6),
   ("jul", 7), ("aug", 8), ("sep", 9), ("sept", 9), ("oct", 10), ("nov", 11),
   ("dec", 12)]

/-- Dictionary get on the MONTHS table. -/
def monthsGet (k : String) : Option Nat :=
  (MONTHS.find? (fun p => p.1 == k)).map Prod.snd

/-- date_parse.py parse_curated_date, lines 28 to 84.  The now argument
is the naive reference datetime (the Python default utcnow and the
timezone normalisation are outside the embedding; the claims supply
naive values).  The strip of dots and spaces from the month name is a
no-op because the captured group holds only word characters. -/
def parse_curated_date (text : String) (now : PyDateTime) : Option PyDateTime :=
  if strEmpty text then none
  else
    let raw := pyStrip text
    if strEmpty raw then none
    else
      match matchISO raw.data with
      | some (y, m, d) => mkDatetime y m d
      | none =>
        match matchMonthDay raw.data with
        | some (w, day) =>
          let monthName : String := ⟨(pyLower ⟨w⟩).data.take 4⟩
          match monthsGet ⟨monthName.data.take 3⟩ with
          | none => none
          | some month =>
            let year := now.year
            match mkDatetime year month day with
            | none => none
            | some candidate =>
              if (toMicro candidate : Int) - (toMicro now : Int) > 30 * 86400000000 then
                mkDatetime (year - 1) month day
              else some candidate
        | none =>
          match matchDaysAgo (pyLower raw).data with
          | some days => some (replaceMidnight (pySubDays now days))
          | none =>
            match matchAgeShort (pyLower raw).data with
            | some (v, u) =>
              if u = 'd' then some (replaceMidnight (pySubDays now v))
              else if u = 'w' then some (replaceMidnight (pySubDays now (7 * v)))
              else some (replaceMidnight now)
            | none => none

/-!
Embedding of src/radar/filters/entry.py.
-/

/-- entry.py ENTRY_EXCLUSION_TITLE. -/
def ENTRY_EXCLUSION_TITLE : MatchFn :=
  mSeq mWB (mSeq (mAlt [
    mStr "senior",
    mSeq (mStr "sr") (mOpt (mStr ".")),
    mStr "staff", mStr "principal", mStr "lead", mStr "manager",
    mStr "director", mStr "head"
  ]) mWB)

/-- entry.py ENTRY_INCLUSION_TITLE. -/
def ENTRY_INCLUSION_TITLE : MatchFn :=
  mSeq mWB (mSeq (mAlt [
    mStr "intern",
    mSeq (mStr "new") (mSeq mWs (mStr "grad")),
    mStr "junior", mStr "entry", mStr "associate"
  ]) mWB)

/-- Tail of the PLUS_YEARS_PATTERN after the captured digits: optional
whitespace, a plus sign, optional whitespace, years or yrs with
optional s, then a word boundary. -/
def plusYearsTail : MatchFn :=
  mSeq mWs (mSeq (mStr "+") (mSeq mWs (mSeq yearsWord mWB)))

/-- Values captured by PLUS_YEARS_PATTERN.finditer: every maximal digit
run that starts at a word boundary and is followed by the plus-years
tail.  Matches of the pattern always start at such a run, and a later
match never starts inside an earlier one, so scanning every position
yields exactly the finditer captures. -/
def plusYearsValues : Option Char → List Char → List Nat
  | _, [] => []
  | prev, c :: rest =>
    let pw := match prev with
      | some p => isWordChar p
      | none => false
    if !pw && c.isDigit then
      let run := (c :: rest).takeWhile Char.isDigit
      let tail := (c :: rest).dropWhile Char.isDigit
      if !((plusYearsTail (some (run.getLastD c)) tail).isEmpty) then
        digitsToNat run :: plusYearsValues (some c) rest
      else plusYearsValues (some c) rest
    else plusYearsValues (some c) rest

/-- Does the text contain an N-plus-years phrase with N at least 3?
This is the exact loop condition of filter_entry_level: it walks the
PLUS_YEARS_PATTERN matches and excludes at the first value of 3 or
more. -/
def hasThreePlusYears (s : String) : Bool :=
  (plusYearsValues none (s.data.map Char.toLower)).any (fun v => 3 ≤ v)

/-- entry.py helper _extract_text restricted to the optional-string
fields the claims exercise. -/
def extractText : Option String → String
  | none => ""
  | some s => s

/-- entry.py filter_entry_level, lines 39 to 74, on a job with the
given title, description and description_snippet. -/
def filter_entry_level (title : String) (description : Option String)
    (description_snippet : Option String) : String × String :=
  let title_text := pyStrip title
  let d1 := extractText description
  let desc_text := if strEmpty d1 then extractText description_snippet else d1
  if strEmpty title_text then ("keep", "no-title")
  else if reSearch ENTRY_EXCLUSION_TITLE title_text then ("exclude", "title-senior-term")
  else if !(strEmpty desc_text) && hasThreePlusYears desc_text then
    ("exclude", "description-3plus-years")
  else if reSearch ENTRY_INCLUSION_TITLE title_text then ("keep", "title-junior-term")
  else ("keep", "default")

/-!
Embedding of src/radar/core/normalize.py (the record) and
src/radar/core/dedupe.py.
-/

/-- normalize.py NormalizedJob. -/
structure NormalizedJob where
  title : String
  company : String
  url : String
  source : String
  location : Option String
  posted_at : Option PyDateTime
  description_snippet : Option String
  level : Option String
  keywords : List String
deriving DecidableEq, Repr

/-- dedupe.py _fingerprint: lowercased title, company and url joined
with pipes. -/
def fingerprint (job : NormalizedJob) : String :=
  pyLower job.title ++ "|" ++ pyLower job.company ++ "|" ++ pyLower job.url

/-- Insertion into a Python dict modelled as an association list that
keeps key insertion order; assigning to a present key replaces its
value in place. -/
def dictInsert {α : Type} (k : String) (v : α) :
    List (String × α) → List (String × α)
  | [] => [(k, v)]
  | (k1, v1) :: rest =>
      if k1 = k then (k, v) :: rest else (k1, v1) :: dictInsert k v rest

/-- dedupe.py deduplicate_jobs: fill a dict keyed by fingerprint, then
take its values. -/
def deduplicate_jobs (jobs : List NormalizedJob) : List NormalizedJob :=
  (jobs.foldl (fun seen j => dictInsert (fingerprint j) j seen) []).map Prod.snd

/-!
Embedding of the pieces of src/job_radar.py and src/radar/db/crud.py
used by the claims.
-/

/-- job_radar.py _matches_basic senior marker substrings (line 500). -/
def basicSeniorMarkers : List String :=
  ["senior", "staff", "principal", "lead", "manager", "architect", "sr "]

/-- job_radar.py _matches_basic, lines 488 to 515. -/
def matches_basic (job : NormalizedJob) (junior_only relax us_remote_only : Bool) : Bool :=
  if !junior_only && !us_remote_only then
    !(strEmpty job.title) && !(strEmpty (pyStrip job.title))
  else if !(looks_like_engineering job.title) then false
  else if junior_only then
    let title_l := pyLower job.title
    if basicSeniorMarkers.any (fun s => strContains title_l s) then false
    else if is_junior_title_or_desc job.title job.description_snippet relax then true
    else true
  else if us_remote_only then
    let loc := pyLower (job.location.getD "")
    if !(strEmpty loc)
        && (!(strContains loc "remote")
            || (!(strContains loc "united states") && !(strContains loc "us"))) then
      false
    else true
  else true

/-- job_radar.py line 874: scored.sort(key score, reverse) is a stable
descending sort by score; it is embedded as the stable insertion sort
with the relation second score at most first score. -/
def sortScored (l : List (Int × NormalizedJob)) : List (Int × NormalizedJob) :=
  l.insertionSort (fun a b => b.1 ≤ a.1)

/-- Dict lookup on the association-list model. -/
def dictGet {α : Type} (k : String) : List (String × α) → Option α
  | [] => none
  | (k1, v) :: rest => if k1 = k then some v else dictGet k rest

/-- job_radar.py lines 878 to 889: one pass over the sorted sequence
with 1-based positions, keeping the highest score per url and the
first rank position per url; jobs with a falsy url are skipped. -/
def buildUrlMaps : List (Int × NormalizedJob) → Nat →
    List (String × Int) → List (String × Nat) →
    List (String × Int) × List (String × Nat)
  | [], _, sb, rb => (sb, rb)
  | (score, j) :: rest, idx, sb, rb =>
    if !(strEmpty j.url) then
      let sb1 := match dictGet j.url sb with
        | none => dictInsert j.url score sb
        | some prev => if prev < score then dictInsert j.url score sb else sb
      let rb1 := match dictGet j.url rb with
        | none => dictInsert j.url idx rb
        | some _ => rb
      buildUrlMaps rest (idx + 1) sb1 rb1
    else buildUrlMaps rest (idx + 1) sb rb

/-- job_radar.py _backfill_posted_at target-selection loop, lines 331
to 336: jobs with a missing posted_at and a truthy url, stopping once
maxTotal targets are collected. -/
def backfillTargetsAux (maxTotal : Nat) : List NormalizedJob → Nat → List NormalizedJob
  | [], _ => []
  | j :: rest, count =>
    if j.posted_at.isNone && !(strEmpty j.url) then
      if maxTotal ≤ count + 1 then [j]
      else j :: backfillTargetsAux maxTotal rest (count + 1)
    else backfillTargetsAux maxTotal rest count

/-- Targets of the backfill pass; an empty cap means the function
returns before selecting anything. -/
def backfillTargets (jobs : List NormalizedJob) (maxTotal : Nat) : List NormalizedJob :=
  if maxTotal = 0 then [] else backfillTargetsAux maxTotal jobs 0

/-- Effect of _backfill_posted_at on the job list: each selected target
whose fetched text parses to a date gets that date written into
posted_at; every other job is untouched.  fetchText abstracts the
snippet-or-HTTP text retrieval and parse abstracts
_parse_posted_at_from_text, both free parameters here. -/
def backfillPostedAt (jobs : List NormalizedJob) (maxTotal : Nat)
    (fetchText : NormalizedJob → String) (parse : String → Option PyDateTime) :
    List NormalizedJob :=
  let targets := backfillTargets jobs maxTotal
  jobs.map (fun j =>
    if j ∈ targets then
      let txt := fetchText j
      if strEmpty txt then j
      else
        match parse txt with
        | none => j
        | some dt => { j with posted_at := some dt }
    else j)

/-- crud.py upsert_job single field-update step, lines 203 to 210: the
id key is skipped, None values are skipped, and posted_at is skipped
when the stored row already has one. -/
def upsertStep {V : Type} (jb : String → Option V) (kv : String × Option V) :
    String → Option V :=
  if kv.1 = "id" then jb
  else
    match kv.2 with
    | none => jb
    | some v =>
      if kv.1 = "posted_at" ∧ (jb "posted_at").isSome then jb
      else Function.update jb kv.1 (some v)

/-- crud.py upsert_job update loop over job_data items, applied to an
existing row modelled as a partial map from field names to values. -/
def upsertApply {V : Type} (job : String → Option V)
    (data : List (String × Option V)) : String → Option V :=
  data.foldl upsertStep job

/-!
Specification-side definitions used to state the claims about
deduplication and the scored sort, plus order instances for the sort
relation.
-/

/-- Entries of an association-list dict with a given key. -/
def entriesFor {α : Type} (f : String) (d : List (String × α)) : List (String × α) :=
  d.filter (fun p => p.1 == f)

/-- Last record of the list carrying the given fingerprint. -/
def lastWithFp (f : String) : List NormalizedJob → Option NormalizedJob
  | [] => none
  | j :: rest =>
    match lastWithFp f rest with
    | some x => some x
    | none => if fingerprint j = f then some j else none

/-- Combine two optional scores, keeping the larger. -/
def optMax : Option Int → Option Int → Option Int
  | none, b => b
  | some x, none => some x
  | some x, some y => some (max x y)

/-- First of two optional values. -/
def optFirst {α : Type} : Option α → Option α → Option α
  | none, b => b
  | some x, _ => some x

/-- Specification: 1-based position of the first record with the given
url, counting from a start index. -/
def firstRankFrom (u : String) : Nat → List (Int × NormalizedJob) → Option Nat
  | _, [] => none
  | idx, (_, j) :: rest =>
      if j.url = u then some idx else firstRankFrom u (idx + 1) rest

/-- Specification: maximum score over the records with the given url. -/
def maxScoreOf (u : String) : List (Int × NormalizedJob) → Option Int
  | [] => none
  | (s, j) :: rest =>
      if j.url = u then optMax (some s) (maxScoreOf u rest) else maxScoreOf u rest

instance : IsTotal (Int × NormalizedJob) (fun a b => b.1 ≤ a.1) :=
  ⟨fun a b => Int.le_total b.1 a.1⟩

instance : IsTrans (Int × NormalizedJob) (fun a b => b.1 ≤ a.1) :=
  ⟨fun _ _ _ h1 h2 => le_trans h2 h1⟩

/-!
Helper lemmas shared by several claims.
-/

/-- A string containing the word remote is not empty. -/
theorem strContains_remote_ne_empty {s : String}
    (h : strContains s "remote" = true) : strEmpty s = false := by
  cases s with
  | mk data =>
    cases data with
    | nil => simp [strContains, listContains] at h
    | cons c cs => simp [strEmpty]

/-- A text with an N-plus-years phrase is not empty. -/
theorem hasThreePlusYears_ne_empty {s : String}
    (h : hasThreePlusYears s = true) : strEmpty s = false := by
  cases s with
  | mk data =>
    cases data with
    | nil => simp [hasThreePlusYears, plusYearsValues] at h
    | cons c cs => simp [strEmpty]

/-- C1: for every title matched by SENIOR_BLOCK and every description,
is_junior_title_or_desc with relaxed mode on returns false: the
senior-title hard block cannot be overridden by relaxed mode or by any
description text. -/
theorem senior_title_hard_block (title : String) (d : Option String)
    (h : reSearch SENIOR_BLOCK title = true) :
    is_junior_title_or_desc title d true = false := by
  unfold is_junior_title_or_desc
  simp [h]

theorem senior_title_hard_block_witness :
    reSearch SENIOR_BLOCK "Senior Engineer" = true ∧
      is_junior_title_or_desc "Senior Engineer" (some "junior, 0-2 years") true = false :=
  ⟨by decide, senior_title_hard_block "Senior Engineer" (some "junior, 0-2 years") (by decide)⟩

/-- C2: relaxed mode is strictly additive: whenever the strict mode
accepts a title and description, relaxed mode accepts them as well. -/
theorem relaxed_mode_additive (title : String) (d : Option String)
    (h : is_junior_title_or_desc title d false = true) :
    is_junior_title_or_desc title d true = true := by
  unfold is_junior_title_or_desc at h ⊢
  cases hsb : reSearch SENIOR_BLOCK title <;>
    cases hl2 : reSearch ENGINEER_L2 title <;>
      cases hl3 : reSearch LEVEL3_GUARD title <;>
        cases hjt : reSearch JUNIOR_TITLE title <;>
          cases hy : reSearch YEARS_0_TO_3 title <;>
            simp_all

theorem relaxed_mode_additive_witness :
    is_junior_title_or_desc "Junior Developer" none false = true ∧
      is_junior_title_or_desc "Junior Developer" none true = true :=
  ⟨by decide, relaxed_mode_additive "Junior Developer" none (by decide)⟩

/-- C4: a title free of senior markers and of level II/2 and III/3
markers that carries a junior term or a 0-to-3-years range is accepted
for every description and in both modes. -/
theorem positive_title_accepted (title : String) (d : Option String) (r : Bool)
    (hsb : reSearch SENIOR_BLOCK title = false)
    (hl2 : reSearch ENGINEER_L2 title = false)
    (hl3 : reSearch LEVEL3_GUARD title = false)
    (hpos : reSearch JUNIOR_TITLE title = true ∨ reSearch YEARS_0_TO_3 title = true) :
    is_junior_title_or_desc title d r = true := by
  unfold is_junior_title_or_desc
  rcases hpos with h | h <;> simp [hsb, hl2, hl3, h]

theorem positive_title_accepted_witness :
    is_junior_title_or_desc "Junior Developer" (some "requires 9+ years") false = true :=
  positive_title_accepted "Junior Developer" (some "requires 9+ years") false
    (by decide) (by decide) (by decide) (Or.inl (by decide))

/-- C3 counterexample: Toronto is in the non-US marker list and occurs
in the location, yet a US-remote description still yields true, because
the location hard block additionally requires the word remote in the
location string. -/
theorem non_us_location_counterexample :
    NON_US_MARKERS.any (fun m => strContains (pyLower "Toronto") m) = true ∧
      looks_remote_us (some "Toronto") (some "Remote (US)") = true := by
  exact ⟨by decide, by decide⟩

/-- C3 amended: when the location string itself mentions remote
together with a non-US marker and no US-affirming keyword (the
condition of the helper _has_non_us_remote), looks_remote_us returns
false for every description. -/
theorem non_us_remote_location_blocks (loc : String) (d : Option String)
    (h : has_non_us_remote (pyLower loc) = true) :
    looks_remote_us (some loc) d = false := by
  have hrem : strContains (pyLower (pyLower loc)) "remote" = true := by
    unfold has_non_us_remote at h
    exact (Bool.and_eq_true_iff.mp (Bool.and_eq_true_iff.mp h).1).1
  have hne : strEmpty loc = false := by
    have h1 := strContains_remote_ne_empty hrem
    cases loc with
    | mk data =>
      cases data with
      | nil => simp [pyLower, strEmpty] at h1
      | cons c cs => simp [strEmpty]
  unfold looks_remote_us
  simp [optTruthy, hne, h]

theorem non_us_remote_location_blocks_witness :
    looks_remote_us (some "Remote - Canada") (some "remote - us") = false :=
  non_us_remote_location_blocks "Remote - Canada" (some "remote - us") (by decide)

/-- C10: in filter_entry_level the description years exclusion is
checked before the junior-term title inclusion: with a non-empty title
free of senior exclusion terms, a description carrying an N-plus-years
phrase with N at least 3 forces the exclude outcome, whatever inclusion
terms the title holds. -/
theorem desc_years_checked_before_inclusion (title : String) (d ds : Option String)
    (ht : strEmpty (pyStrip title) = false)
    (hexc : reSearch ENTRY_EXCLUSION_TITLE (pyStrip title) = false)
    (h3 : hasThreePlusYears
        (if strEmpty (extractText d) then extractText ds else extractText d) = true) :
    filter_entry_level title d ds = ("exclude", "description-3plus-years") := by
  unfold filter_entry_level
  have hne := hasThreePlusYears_ne_empty h3
  simp [ht, hexc, h3, hne]

theorem desc_years_checked_before_inclusion_witness :
    filter_entry_level "Junior Engineer Intern" (some "requires 5+ years of Java") none
      = ("exclude", "description-3plus-years") :=
  desc_years_checked_before_inclusion "Junior Engineer Intern"
    (some "requires 5+ years of Java") none (by decide) (by decide) (by decide)

/-- C8: under the junior-only gate, a title passing the engineering
classifier without any senior marker substring is accepted even with no
junior signal, and a title with a senior marker substring is rejected. -/
theorem junior_only_gate (job : NormalizedJob) (relax uro : Bool) :
    (looks_like_engineering job.title = true →
      basicSeniorMarkers.any (fun s => strContains (pyLower job.title) s) = false →
      matches_basic job true relax uro = true) ∧
    (basicSeniorMarkers.any (fun s => strContains (pyLower job.title) s) = true →
      matches_basic job true relax uro = false) := by
  unfold matches_basic
  constructor
  · intro heng hmark
    cases hj : is_junior_title_or_desc job.title job.description_snippet relax <;>
      simp [heng, hmark, hj]
  · intro hmark
    cases heng : looks_like_engineering job.title <;> simp [heng, hmark]

theorem junior_only_gate_witness :
    matches_basic ⟨"Engineer", "Acme", "u", "s", none, none, none, none, []⟩
        true false false = true ∧
      matches_basic ⟨"Senior Engineer", "Acme", "u", "s", none, none, none, none, []⟩
        true true false = false :=
  ⟨(junior_only_gate ⟨"Engineer", "Acme", "u", "s", none, none, none, none, []⟩
      false false).1 (by decide) (by decide),
   (junior_only_gate ⟨"Senior Engineer", "Acme", "u", "s", none, none, none, none, []⟩
      true false).2 (by decide)⟩

/-- C9: the curated-date parser satisfies the four reference
equalities of the specification. -/
theorem curated_date_reference_cases :
    (∀ now, parse_curated_date "2025-09-14" now = some ⟨2025, 9, 14, 0, 0, 0, 0⟩) ∧
      parse_curated_date "3 days ago" ⟨2025, 9, 18, 0, 0, 0, 0⟩
        = some ⟨2025, 9, 15, 0, 0, 0, 0⟩ ∧
      parse_curated_date "Sep 17" ⟨2025, 9, 18, 15, 30, 0, 0⟩
        = some ⟨2025, 9, 17, 0, 0, 0, 0⟩ ∧
      (∀ now, parse_curated_date "n/a" now = none) :=
  ⟨fun _ => rfl, by decide, by decide, fun _ => rfl⟩

/-- Every job selected by the backfill target loop has a missing
posted_at. -/
theorem backfillTargetsAux_posted_at_none (maxTotal : Nat) :
    ∀ (jobs : List NormalizedJob) (count : Nat) (j : NormalizedJob),
      j ∈ backfillTargetsAux maxTotal jobs count → j.posted_at = none := by
  intro jobs
  induction jobs with
  | nil => intro count j h; simp [backfillTargetsAux] at h
  | cons a rest ih =>
    intro count j h
    unfold backfillTargetsAux at h
    by_cases hc : (a.posted_at.isNone && !(strEmpty a.url)) = true
    · rw [if_pos hc] at h
      have ha : a.posted_at = none := by
        have := (Bool.and_eq_true _ _).mp hc
        exact Option.isNone_iff_eq_none.mp this.1
      by_cases hm : maxTotal ≤ count + 1
      · rw [if_pos hm] at h
        simp at h
        exact h ▸ ha
      · rw [if_neg hm] at h
        rcases List.mem_cons.mp h with h1 | h1
        · exact h1 ▸ ha
        · exact ih _ _ h1
    · rw [if_neg hc] at h
      exact ih _ _ h

/-- Target selection of the backfill pass touches only records with a
missing posted_at. -/
theorem backfillTargets_posted_at_none (jobs : List NormalizedJob) (cap : Nat)
    (j : NormalizedJob) (h : j ∈ backfillTargets jobs cap) : j.posted_at = none := by
  unfold backfillTargets at h
  split at h
  · simp at h
  · exact backfillTargetsAux_posted_at_none cap jobs 0 j h

/-- The upsert field loop never changes a posted_at that is already
set. -/
theorem upsertApply_posted_at {V : Type} (job : String → Option V)
    (data : List (String × Option V)) (v : V)
    (h : job "posted_at" = some v) : upsertApply job data "posted_at" = some v := by
  induction data generalizing job with
  | nil => simpa [upsertApply] using h
  | cons kv rest ih =>
    have hstep : upsertStep job kv "posted_at" = some v := by
      unfold upsertStep
      split
      · exact h
      · cases hkv : kv.2 with
        | none => exact h
        | some v2 =>
          split
          · exact h
          · rename_i hcond
            have hne : ("posted_at" : String) ≠ kv.1 := by
              intro he
              exact hcond ⟨he.symm, by simp [h]⟩
            exact (Function.update_noteq hne (some v2) job).trans h
    have : upsertApply job (kv :: rest) = upsertApply (upsertStep job kv) rest := rfl
    rw [this]
    exact ih _ hstep

/-- A job whose posted_at is already set passes through the backfill
pass unchanged, at its position. -/
theorem backfill_preserves_set_posted_at (jobs : List NormalizedJob) (cap : Nat)
    (fetch : NormalizedJob → String) (parse : String → Option PyDateTime)
    (i : Nat) (j : NormalizedJob) (hg : jobs[i]? = some j) (hp : j.posted_at ≠ none) :
    (backfillPostedAt jobs cap fetch parse)[i]? = some j := by
  have hnot : j ∉ backfillTargets jobs cap := fun hmem =>
    hp (backfillTargets_posted_at_none jobs cap j hmem)
  unfold backfillPostedAt
  rw [List.getElem?_map, hg]
  simp [hnot]

/-- C6: posted_at is write-once.  The backfill pass selects only
records with a missing posted_at, every record with a set posted_at
passes through backfill unchanged, and the upsert field loop keeps the
stored posted_at whenever it is already present, for every incoming
value list. -/
theorem posted_at_write_once (jobs : List NormalizedJob) (cap : Nat)
    (fetch : NormalizedJob → String) (parse : String → Option PyDateTime) (V : Type) :
    (∀ j ∈ backfillTargets jobs cap, j.posted_at = none) ∧
      (∀ (i : Nat) (j : NormalizedJob), jobs[i]? = some j → j.posted_at ≠ none →
        (backfillPostedAt jobs cap fetch parse)[i]? = some j) ∧
      (∀ (job : String → Option V) (data : List (String × Option V)) (v : V),
        job "posted_at" = some v → upsertApply job data "posted_at" = some v) :=
  ⟨fun j hj => backfillTargets_posted_at_none jobs cap j hj,
   fun i j hg hp => backfill_preserves_set_posted_at jobs cap fetch parse i j hg hp,
   fun job data v h => upsertApply_posted_at job data v h⟩

theorem posted_at_write_once_witness :
    (backfillPostedAt
        [⟨"T", "C", "u", "s", none, some ⟨2025, 1, 1, 0, 0, 0, 0⟩, none, none, []⟩]
        120 (fun _ => "posted 3 days ago") (fun _ => some ⟨2024, 2, 2, 0, 0, 0, 0⟩))[0]?
      = some ⟨"T", "C", "u", "s", none, some ⟨2025, 1, 1, 0, 0, 0, 0⟩, none, none, []⟩ ∧
      upsertApply (fun k => if k = "posted_at" then some (1 : Nat) else none)
        [("posted_at", some 5), ("level", some 7)] "posted_at" = some 1 :=
  ⟨(posted_at_write_once
      [⟨"T", "C", "u", "s", none, some ⟨2025, 1, 1, 0, 0, 0, 0⟩, none, none, []⟩]
      120 (fun _ => "posted 3 days ago") (fun _ => some ⟨2024, 2, 2, 0, 0, 0, 0⟩)
      Nat).2.1 0 _ (by decide) (by decide),
   (posted_at_write_once [] 0 (fun _ => "") (fun _ => none) Nat).2.2
      (fun k => if k = "posted_at" then some (1 : Nat) else none)
      [("posted_at", some 5), ("level", some 7)] 1 (by decide)⟩

/-!
Dict lemmas and the deduplication development (C5).
-/

/-- Membership after a dict insertion. -/
theorem mem_dictInsert {α : Type} {k : String} {v : α} {d : List (String × α)}
    {p : String × α} (h : p ∈ dictInsert k v d) : p = (k, v) ∨ p ∈ d := by
  induction d with
  | nil => simpa [dictInsert] using h
  | cons a rest ih =>
    unfold dictInsert at h
    split at h
    · rcases List.mem_cons.mp h with h1 | h1
      · exact Or.inl h1
      · exact Or.inr (List.mem_cons_of_mem _ h1)
    · rcases List.mem_cons.mp h with h1 | h1
      · exact Or.inr (h1 ▸ List.mem_cons_self _ _)
      · rcases ih h1 with h2 | h2
        · exact Or.inl h2
        · exact Or.inr (List.mem_cons_of_mem _ h2)

/-- Keys after a dict insertion. -/
theorem dictInsert_keys {α : Type} (k : String) (v : α) (d : List (String × α)) :
    (dictInsert k v d).map Prod.fst
      = if k ∈ d.map Prod.fst then d.map Prod.fst else d.map Prod.fst ++ [k] := by
  induction d with
  | nil => simp [dictInsert]
  | cons a rest ih =>
    unfold dictInsert
    by_cases hk : a.1 = k
    · simp [hk]
    · by_cases hm : k ∈ rest.map Prod.fst
      · simp [hk, hm, ih, Ne.symm hk]
      · simp [hk, hm, ih, Ne.symm hk]

/-- Dict insertion keeps the keys without duplicates. -/
theorem dictInsert_keys_nodup {α : Type} {k : String} {v : α} {d : List (String × α)}
    (h : (d.map Prod.fst).Nodup) : ((dictInsert k v d).map Prod.fst).Nodup := by
  rw [dictInsert_keys]
  split
  · exact h
  · rename_i hnm
    rw [List.nodup_append]
    refine ⟨h, List.nodup_singleton _, ?_⟩
    intro a ha hak
    rw [List.mem_singleton] at hak
    exact hnm (hak ▸ ha)

/-- Inserting at a key leaves exactly one entry for it, when the keys
are duplicate-free. -/
theorem entriesFor_dictInsert_self {α : Type} (k : String) (v : α)
    (d : List (String × α)) (hnd : (d.map Prod.fst).Nodup) :
    entriesFor k (dictInsert k v d) = [(k, v)] := by
  induction d with
  | nil => simp [dictInsert, entriesFor]
  | cons a rest ih =>
    unfold dictInsert
    by_cases hk : a.1 = k
    · rw [if_pos hk]
      have hnotin : k ∉ rest.map Prod.fst := by
        rw [List.map_cons, hk] at hnd
        exact (List.nodup_cons.mp hnd).1
      have hfil : entriesFor k rest = [] := by
        unfold entriesFor
        rw [List.filter_eq_nil_iff]
        intro p hp hbeq
        exact hnotin (List.mem_map.mpr ⟨p, hp, by simpa using hbeq⟩)
      unfold entriesFor at hfil ⊢
      simp [hfil]
    · rw [if_neg hk]
      have hnd2 : (rest.map Prod.fst).Nodup := by
        rw [List.map_cons] at hnd
        exact (List.nodup_cons.mp hnd).2
      unfold entriesFor at ih ⊢
      simp [hk, ih hnd2]

/-- Inserting at another key leaves the entries for this key alone. -/
theorem entriesFor_dictInsert_ne {α : Type} {f k : String} (v : α)
    (d : List (String × α)) (hne : k ≠ f) :
    entriesFor f (dictInsert k v d) = entriesFor f d := by
  induction d with
  | nil => simp [dictInsert, entriesFor, hne]
  | cons a rest ih =>
    unfold dictInsert
    by_cases hk : a.1 = k
    · rw [if_pos hk]
      unfold entriesFor
      simp [hne, hk]
    · rw [if_neg hk]
      unfold entriesFor at ih ⊢
      rw [List.filter_cons, List.filter_cons, ih]

/-- Folding the dedupe dict: the entries at a fingerprint hold exactly
the last job with that fingerprint. -/
theorem fold_entriesFor (f : String) :
    ∀ (jobs : List NormalizedJob) (d : List (String × NormalizedJob)),
      (d.map Prod.fst).Nodup →
      entriesFor f (jobs.foldl (fun seen j => dictInsert (fingerprint j) j seen) d)
        = (match lastWithFp f jobs with
           | some j => [(f, j)]
           | none => entriesFor f d) := by
  intro jobs
  induction jobs with
  | nil => intro d hnd; simp [lastWithFp]
  | cons a rest ih =>
    intro d hnd
    rw [List.foldl_cons]
    have hnd2 : ((dictInsert (fingerprint a) a d).map Prod.fst).Nodup :=
      dictInsert_keys_nodup hnd
    rw [ih _ hnd2]
    cases hl : lastWithFp f rest with
    | some x => simp [lastWithFp, hl]
    | none =>
      by_cases hf : fingerprint a = f
      · rw [← hf]
        simp only [lastWithFp, hl, hf]
        rw [entriesFor_dictInsert_self _ _ _ hnd]
        simp [hf]
      · simp only [lastWithFp, hl]
        rw [entriesFor_dictInsert_ne _ _ hf]
        simp [hf]

/-- Every dict entry built by the dedupe fold is keyed by the
fingerprint of its value. -/
theorem fold_fp_keys :
    ∀ (jobs : List NormalizedJob) (d : List (String × NormalizedJob)),
      (∀ p ∈ d, fingerprint p.2 = p.1) →
      ∀ p ∈ jobs.foldl (fun seen j => dictInsert (fingerprint j) j seen) d,
        fingerprint p.2 = p.1 := by
  intro jobs
  induction jobs with
  | nil => intro d hd p hp; exact hd p hp
  | cons a rest ih =>
    intro d hd p hp
    rw [List.foldl_cons] at hp
    refine ih _ ?_ p hp
    intro q hq
    rcases mem_dictInsert hq with h1 | h1
    · rw [h1]
    · exact hd q h1

/-- Filtering the dict values by fingerprint is filtering the dict by
key, when entries are keyed by the fingerprint of their value. -/
theorem map_snd_filter_fp (f : String) (d : List (String × NormalizedJob))
    (hk : ∀ p ∈ d, fingerprint p.2 = p.1) :
    (d.map Prod.snd).filter (fun x => fingerprint x == f)
      = (entriesFor f d).map Prod.snd := by
  induction d with
  | nil => simp [entriesFor]
  | cons a rest ih =>
    have ha := hk a (List.mem_cons_self _ _)
    have ih2 := ih (fun p hp => hk p (List.mem_cons_of_mem _ hp))
    unfold entriesFor at ih2 ⊢
    by_cases haf : a.1 = f
    · simp [ha, haf, ih2]
    · have : ¬(fingerprint a.2 = f) := by rw [ha]; exact haf
      simp [ha, haf, this, ih2]

/-- C5 counterexample: two records equal up to the case of the url
collapse to a single record, although their triples of lowercased
title, lowercased company and verbatim url differ. -/
theorem dedupe_url_case_counterexample :
    deduplicate_jobs
        [⟨"Engineer", "Acme", "https://X.com/1", "s1", none, none, none, none, []⟩,
         ⟨"Engineer", "Acme", "https://x.com/1", "s2", none, none, none, none, []⟩]
      = [⟨"Engineer", "Acme", "https://x.com/1", "s2", none, none, none, none, []⟩] := by
  decide

/-- C5 amended: deduplicate_jobs keeps exactly one record per distinct
fingerprint string (lowercased title, lowercased company and lowercased
url joined with pipes) and the survivor is the last occurrence
processed. -/
theorem dedupe_last_seen_wins (jobs : List NormalizedJob) (f : String)
    (j : NormalizedJob) (h : lastWithFp f jobs = some j) :
    (deduplicate_jobs jobs).filter (fun x => fingerprint x == f) = [j] := by
  unfold deduplicate_jobs
  rw [map_snd_filter_fp f _ (fold_fp_keys jobs [] (by simp))]
  rw [fold_entriesFor f jobs [] (by simp)]
  rw [h]
  rfl

theorem dedupe_last_seen_wins_witness :
    (deduplicate_jobs
        [⟨"Engineer", "Acme", "u1", "s1", none, none, none, none, []⟩,
         ⟨"ENGINEER", "acme", "u1", "s2", none, none, none, none, []⟩]).filter
        (fun x => fingerprint x == "engineer|acme|u1")
      = [⟨"ENGINEER", "acme", "u1", "s2", none, none, none, none, []⟩] :=
  dedupe_last_seen_wins
    [⟨"Engineer", "Acme", "u1", "s1", none, none, none, none, []⟩,
     ⟨"ENGINEER", "acme", "u1", "s2", none, none, none, none, []⟩]
    "engineer|acme|u1"
    ⟨"ENGINEER", "acme", "u1", "s2", none, none, none, none, []⟩ (by decide)

/-!
Sort and url-map development (C7).
-/

theorem optMax_none (x : Option Int) : optMax x none = x := by cases x <;> rfl

theorem optFirst_none {α : Type} (x : Option α) : optFirst x none = x := by
  cases x <;> rfl

theorem dictGet_dictInsert_self {α : Type} (k : String) (v : α)
    (d : List (String × α)) : dictGet k (dictInsert k v d) = some v := by
  induction d with
  | nil => simp [dictInsert, dictGet]
  | cons a rest ih =>
    unfold dictInsert
    by_cases hk : a.1 = k
    · rw [if_pos hk]
      simp [dictGet]
    · simp [dictGet, hk, ih]

theorem dictGet_dictInsert_ne {α : Type} {k u : String} (v : α)
    (d : List (String × α)) (h : k ≠ u) :
    dictGet u (dictInsert k v d) = dictGet u d := by
  induction d with
  | nil => simp [dictInsert, dictGet, h]
  | cons a rest ih =>
    unfold dictInsert
    by_cases hk : a.1 = k
    · simp [dictGet, hk, h]
    · simp [dictGet, hk, ih]

theorem optMax_absorb_ge {p s : Int} (h : s ≤ p) (x : Option Int) :
    optMax (some p) (optMax (some s) x) = optMax (some p) x := by
  cases x with
  | none => simp [optMax, max_eq_left h]
  | some y =>
    simp only [optMax, Option.some.injEq]
    rw [← max_assoc, max_eq_left h]

theorem optMax_absorb_le {p s : Int} (h : p ≤ s) (x : Option Int) :
    optMax (some p) (optMax (some s) x) = optMax (some s) x := by
  cases x with
  | none => simp [optMax, max_eq_right h]
  | some y =>
    simp only [optMax, Option.some.injEq]
    rw [← max_assoc, max_eq_right h]

/-- An empty-by-characters string is the empty string. -/
theorem strEmpty_eq {s : String} (h : strEmpty s = true) : s = "" := by
  cases s with
  | mk data =>
    cases data with
    | nil => rfl
    | cons c cs => simp [strEmpty] at h

/-- Filtering by score across an ordered insertion: the inserted pair
lands in front of the equal-score entries it was inserted into. -/
theorem filter_orderedInsert_score (s : Int) (a : Int × NormalizedJob)
    (l : List (Int × NormalizedJob)) :
    (List.orderedInsert (fun x y => y.1 ≤ x.1) a l).filter (fun p => p.1 == s)
      = if a.1 == s then a :: l.filter (fun p => p.1 == s)
        else l.filter (fun p => p.1 == s) := by
  induction l with
  | nil => simp [List.orderedInsert, List.filter_cons]
  | cons b rest ih =>
    rw [List.orderedInsert]
    by_cases hr : b.1 ≤ a.1
    · rw [if_pos hr, List.filter_cons]
    · rw [if_neg hr, List.filter_cons, ih]
      have hlt : a.1 < b.1 := not_le.mp hr
      by_cases has : a.1 = s
      · have hbs : ¬(b.1 = s) := by
          intro hb
          rw [hb, ← has] at hlt
          exact lt_irrefl _ hlt
        simp [has, hbs, List.filter_cons]
      · simp [has, List.filter_cons]

/-- Stability of the scored sort: records with one given score keep
their relative input order. -/
theorem sortScored_stable (l : List (Int × NormalizedJob)) (s : Int) :
    (sortScored l).filter (fun p => p.1 == s) = l.filter (fun p => p.1 == s) := by
  unfold sortScored
  induction l with
  | nil => rfl
  | cons a rest ih =>
    rw [List.insertionSort, filter_orderedInsert_score, ih]
    by_cases has : a.1 = s
    · simp [has, List.filter_cons]
    · simp [has, List.filter_cons]

/-- One pass of the url-map loop: the score map accumulates the
maximum per url and the rank map keeps the first index per url. -/
theorem buildUrlMaps_lookup (u : String) (hu : u ≠ "") :
    ∀ (l : List (Int × NormalizedJob)) (idx : Nat) (sb : List (String × Int))
      (rb : List (String × Nat)),
      dictGet u (buildUrlMaps l idx sb rb).1 = optMax (dictGet u sb) (maxScoreOf u l)
      ∧ dictGet u (buildUrlMaps l idx sb rb).2
          = optFirst (dictGet u rb) (firstRankFrom u idx l) := by
  intro l
  induction l with
  | nil =>
    intro idx sb rb
    simp [buildUrlMaps, maxScoreOf, firstRankFrom, optMax_none, optFirst_none]
  | cons a rest ih =>
    intro idx sb rb
    obtain ⟨score, j⟩ := a
    rw [buildUrlMaps]
    by_cases hemp : strEmpty j.url = true
    · have hju : ¬(j.url = u) := by
        rw [strEmpty_eq hemp]
        exact fun he => hu he.symm
      rw [if_neg (by simp [hemp])]
      rw [maxScoreOf, firstRankFrom, if_neg hju, if_neg hju]
      exact ih (idx + 1) sb rb
    · have hemp2 : strEmpty j.url = false := Bool.not_eq_true _ ▸ eq_false_of_ne_true hemp
      rw [if_pos (by simp [hemp2])]
      by_cases hju : j.url = u
      · rw [maxScoreOf, firstRankFrom, if_pos hju, if_pos hju]
        cases hsb : dictGet j.url sb with
        | none =>
          cases hrb : dictGet j.url rb with
          | none =>
            dsimp only
            have h := ih (idx + 1) (dictInsert j.url score sb) (dictInsert j.url idx rb)
            rw [hju] at hsb hrb
            rw [h.1, h.2, hju, dictGet_dictInsert_self, dictGet_dictInsert_self,
              hsb, hrb]
            exact ⟨rfl, rfl⟩
          | some r =>
            dsimp only
            have h := ih (idx + 1) (dictInsert j.url score sb) rb
            rw [hju] at hsb hrb
            rw [h.1, h.2, hju, dictGet_dictInsert_self, hsb, hrb]
            exact ⟨rfl, rfl⟩
        | some prev =>
          by_cases hlt : prev < score
          · cases hrb : dictGet j.url rb with
            | none =>
              dsimp only
              rw [if_pos hlt]
              have h := ih (idx + 1) (dictInsert j.url score sb) (dictInsert j.url idx rb)
              rw [hju] at hsb hrb
              rw [h.1, h.2, hju, dictGet_dictInsert_self, dictGet_dictInsert_self,
                hsb, hrb]
              exact ⟨(optMax_absorb_le (le_of_lt hlt) _).symm, rfl⟩
            | some r =>
              dsimp only
              rw [if_pos hlt]
              have h := ih (idx + 1) (dictInsert j.url score sb) rb
              rw [hju] at hsb hrb
              rw [h.1, h.2, hju, dictGet_dictInsert_self, hsb, hrb]
              exact ⟨(optMax_absorb_le (le_of_lt hlt) _).symm, rfl⟩
          · cases hrb : dictGet j.url rb with
            | none =>
              dsimp only
              rw [if_neg hlt]
              have h := ih (idx + 1) sb (dictInsert j.url idx rb)
              rw [hju] at hsb hrb
              rw [h.1, h.2, hju, dictGet_dictInsert_self, hsb, hrb]
              exact ⟨(optMax_absorb_ge (not_lt.mp hlt) _).symm, rfl⟩
            | some r =>
              dsimp only
              rw [if_neg hlt]
              have h := ih (idx + 1) sb rb
              rw [hju] at hsb hrb
              rw [h.1, h.2, hsb, hrb]
              exact ⟨(optMax_absorb_ge (not_lt.mp hlt) _).symm, rfl⟩
      · rw [maxScoreOf, firstRankFrom, if_neg hju, if_neg hju]
        cases hsb : dictGet j.url sb with
        | none =>
          cases hrb : dictGet j.url rb with
          | none =>
            dsimp only
            have h := ih (idx + 1) (dictInsert j.url score sb) (dictInsert j.url idx rb)
            rw [h.1, h.2, dictGet_dictInsert_ne _ _ hju, dictGet_dictInsert_ne _ _ hju]
            exact ⟨rfl, rfl⟩
          | some r =>
            dsimp only
            have h := ih (idx + 1) (dictInsert j.url score sb) rb
            rw [h.1, h.2, dictGet_dictInsert_ne _ _ hju]
            exact ⟨rfl, rfl⟩
        | some prev =>
          by_cases hlt : prev < score
          · cases hrb : dictGet j.url rb with
            | none =>
              dsimp only
              rw [if_pos hlt]
              have h := ih (idx + 1) (dictInsert j.url score sb) (dictInsert j.url idx rb)
              rw [h.1, h.2, dictGet_dictInsert_ne _ _ hju, dictGet_dictInsert_ne _ _ hju]
              exact ⟨rfl, rfl⟩
            | some r =>
              dsimp only
              rw [if_pos hlt]
              have h := ih (idx + 1) (dictInsert j.url score sb) rb
              rw [h.1, h.2, dictGet_dictInsert_ne _ _ hju]
              exact ⟨rfl, rfl⟩
          · cases hrb : dictGet j.url rb with
            | none =>
              dsimp only
              rw [if_neg hlt]
              have h := ih (idx + 1) sb (dictInsert j.url idx rb)
              rw [h.1, h.2, dictGet_dictInsert_ne _ _ hju]
              exact ⟨rfl, rfl⟩
            | some r =>
              dsimp only
              rw [if_neg hlt]
              have h := ih (idx + 1) sb rb
              rw [h.1, h.2]
              exact ⟨rfl, rfl⟩

/-- C7: after scoring, the sequence is sorted descending by score and
the sort is stable on equal scores; walking the sorted sequence, every
nonempty url is assigned the first 1-based position at which it occurs
as its rank, and the maximum score over its occurrences as its score. -/
theorem scored_sort_and_url_maps (l : List (Int × NormalizedJob)) (u : String)
    (s : Int) (hu : u ≠ "") :
    List.Sorted (fun a b : Int × NormalizedJob => b.1 ≤ a.1) (sortScored l)
    ∧ (sortScored l).filter (fun p => p.1 == s) = l.filter (fun p => p.1 == s)
    ∧ dictGet u (buildUrlMaps (sortScored l) 1 [] []).2
        = firstRankFrom u 1 (sortScored l)
    ∧ dictGet u (buildUrlMaps (sortScored l) 1 [] []).1
        = maxScoreOf u (sortScored l) := by
  refine ⟨?_, sortScored_stable l s, ?_, ?_⟩
  · unfold sortScored
    exact List.sorted_insertionSort _ l
  · have h := (buildUrlMaps_lookup u hu (sortScored l) 1 [] []).2
    simpa [dictGet, optFirst] using h
  · have h := (buildUrlMaps_lookup u hu (sortScored l) 1 [] []).1
    simpa [dictGet, optMax] using h

theorem scored_sort_and_url_maps_witness :
    List.Sorted (fun a b : Int × NormalizedJob => b.1 ≤ a.1)
      (sortScored [(1, ⟨"t1", "c", "u1", "s", none, none, none, none, []⟩),
                   (3, ⟨"t2", "c", "u1", "s", none, none, none, none, []⟩)])
    ∧ (sortScored [(1, ⟨"t1", "c", "u1", "s", none, none, none, none, []⟩),
                   (3, ⟨"t2", "c", "u1", "s", none, none, none, none, []⟩)]).filter
          (fun p => p.1 == (3 : Int))
        = [(1, ⟨"t1", "c", "u1", "s", none, none, none, none, []⟩),
           (3, ⟨"t2", "c", "u1", "s", none, none, none, none, []⟩)].filter
          (fun p => p.1 == (3 : Int))
    ∧ dictGet "u1"
          (buildUrlMaps
            (sortScored [(1, ⟨"t1", "c", "u1", "s", none, none, none, none, []⟩),
                         (3, ⟨"t2", "c", "u1", "s", none, none, none, none, []⟩)])
            1 [] []).2
        = firstRankFrom "u1" 1
            (sortScored [(1, ⟨"t1", "c", "u1", "s", none, none, none, none, []⟩),
                         (3, ⟨"t2", "c", "u1", "s", none, none, none, none, []⟩)])
    ∧ dictGet "u1"
          (buildUrlMaps
            (sortScored [(1, ⟨"t1", "c", "u1", "s", none, none, none, none, []⟩),
                         (3, ⟨"t2", "c", "u1", "s", none, none, none, none, []⟩)])
            1 [] []).1
        = maxScoreOf "u1"
            (sortScored [(1, ⟨"t1", "c", "u1", "s", none, none, none, none, []⟩),
                         (3, ⟨"t2", "c", "u1", "s", none, none, none, none, []⟩)]) :=
  scored_sort_and_url_maps
    [(1, ⟨"t1", "c", "u1", "s", none, none, none, none, []⟩),
     (3, ⟨"t2", "c", "u1", "s", none, none, none, none, []⟩)]
    "u1" 3 (by decide)

/-!
Concrete evaluations keeping the embedding honest: each one mirrors a
behaviour checked against the source semantics.
-/

example : strContains "remote - us" "us" = true := by decide

example : reSearch SENIOR_BLOCK "Sr. Engineer" = true := by decide

example : reSearch SENIOR_BLOCK "junior engineer" = false := by decide

example : is_junior_title_or_desc "Junior Developer" none false = true := by decide

example : is_junior_title_or_desc "Senior Developer" (some "junior") true = false := by decide

example : is_junior_title_or_desc "Software Engineer II" (some "0-2 years") true = true := by decide

example : is_junior_title_or_desc "Software Engineer II" none true = false := by decide

example : looks_remote_us (some "Remote - US") none = true := by decide

example : looks_remote_us (some "Remote, Canada") none = false := by decide

example : looks_remote_us (some "Toronto") (some "Remote (US)") = true := by decide

example : looks_like_engineering "Software Engineer" = true := by decide

example : looks_like_engineering "Sales Engineer" = false := by decide

example : parse_curated_date "2025-09-14" ⟨2025, 9, 18, 0, 0, 0, 0⟩
    = some ⟨2025, 9, 14, 0, 0, 0, 0⟩ := by decide

example : parse_curated_date "3 days ago" ⟨2025, 9, 18, 0, 0, 0, 0⟩
    = some ⟨2025, 9, 15, 0, 0, 0, 0⟩ := by decide

example : parse_curated_date "Sep 17" ⟨2025, 9, 18, 15, 30, 0, 0⟩
    = some ⟨2025, 9, 17, 0, 0, 0, 0⟩ := by decide

example : parse_curated_date "n/a" ⟨2025, 9, 18, 0, 0, 0, 0⟩ = none := by decide

example : parse_curated_date "2w" ⟨2025, 9, 18, 15, 30, 0, 0⟩
    = some ⟨2025, 9, 4, 0, 0, 0, 0⟩ := by decide

example : parse_curated_date "Dec 30" ⟨2025, 1, 2, 0, 0, 0, 0⟩
    = some ⟨2024, 12, 30, 0, 0, 0, 0⟩ := by decide

example : matches_basic ⟨"Engineer", "A", "u", "s", none, none, none, none, []⟩
    true true false = true := by decide

example : matches_basic ⟨"Lead Engineer", "A", "u", "s", none, none, none, none, []⟩
    true true false = false := by decide
